import Mathlib

/-!
Shallow embedding of the BalkanBrigade interview-practice frontend
(Next.js client pages) together with proofs about the claims of its
specification.

The embedding follows the TypeScript sources:
* the `SCORE:` regex parsing of `applySummary` (summary page and
  interview-results page),
* the markdown-bold stripping and section extraction of the
  interview-results page,
* the `fetchSummary` error-handling / fallback flows,
* the interview page question counter (`questionIndex`, `isFinished`,
  `TOTAL_QUESTIONS`) and `uploadAnswer`,
* the upload page `handleSubmit` validation,
* the interview-setup page `handleStartInterview` config request.
-/

namespace GreenPT

/-- JavaScript `\s` character class (also used by `String.prototype.trim`):
space, tab, line terminators, vertical tab, form feed, NBSP, and the
Unicode space separators. Mirrors the `\s*` in `/SCORE:\s*(\d{1,3})/i`. -/
def isJsWhitespace (c : Char) : Bool :=
  c.toNat = 32 || c.toNat = 9 || c.toNat = 10 || c.toNat = 13 ||
  c.toNat = 11 || c.toNat = 12 || c.toNat = 160 || c.toNat = 5760 ||
  (8192 ≤ c.toNat && c.toNat ≤ 8202) || c.toNat = 8232 || c.toNat = 8233 ||
  c.toNat = 8239 || c.toNat = 8287 || c.toNat = 12288 || c.toNat = 65279

/-- JavaScript `\d` character class: the ASCII digits `0`-`9`. -/
def isAsciiDigit (c : Char) : Bool :=
  48 ≤ c.toNat && c.toNat ≤ 57

/-- Case-insensitive literal matching at the head of a text, as a JS regex
with the `i` flag matches a literal pattern (pattern given lowercase).
Returns the remaining text after the pattern on success. -/
def matchCI : List Char → List Char → Option (List Char)
  | [], rest => some rest
  | _ :: _, [] => none
  | p :: ps, c :: cs => if c.toLower = p then matchCI ps cs else none

/-- The literal part of `/SCORE:\s*(\d{1,3})/i`, lowercased. -/
def scoreMarker : List Char := ['s', 'c', 'o', 'r', 'e', ':']

/-- Greedy `\s*`: drop the maximal run of JS whitespace. -/
def dropJsWs : List Char → List Char
  | [] => []
  | c :: cs => if isJsWhitespace c then dropJsWs cs else c :: cs

/-- Greedy `\d{1,n}` capture: take up to `n` leading ASCII digits. -/
def takeDigitsUpTo : Nat → List Char → List Char
  | 0, _ => []
  | _, [] => []
  | n + 1, c :: cs =>
      if isAsciiDigit c then c :: takeDigitsUpTo n cs else []

/-- Attempt of `/SCORE:\s*(\d{1,3})/i` anchored at the current position:
match the marker case-insensitively, skip the whitespace run, and require
at least one digit (backtracking into `\s*` cannot produce a digit, so the
greedy run is the only candidate).  Returns the captured digits. -/
def tryScoreAt (cs : List Char) : Option (List Char) :=
  match matchCI scoreMarker cs with
  | none => none
  | some rest =>
    match dropJsWs rest with
    | [] => none
    | c :: cs' =>
      if isAsciiDigit c then some (takeDigitsUpTo 3 (c :: cs')) else none

/-- `String.prototype.match` scan: try the regex at every position from the
left and return the first capture. -/
def findScore : List Char → Option (List Char)
  | [] => none
  | c :: cs =>
    match tryScoreAt (c :: cs) with
    | some ds => some ds
    | none => findScore cs

/-- `parseInt(digits, 10)` on a captured digit string, as an integer. -/
def digitsVal (ds : List Char) : Int :=
  ((ds.foldl (fun a c => a * 10 + (c.toNat - 48)) 0 : Nat) : Int)

/-- The score extraction performed by `applySummary`:
`reply.match(/SCORE:\s*(\d{1,3})/i)` followed by
`Math.max(0, Math.min(100, parseInt(match[1], 10)))`, or `null` when the
regex does not match.  Total, so parsing never crashes. -/
def parseScore (r : String) : Option Int :=
  (findScore r.data).map (fun ds => max 0 (min 100 (digitsVal ds)))

/-- Whether the text contains a case-insensitive occurrence of the
`SCORE:` marker (at any position). -/
def containsMarkerL : List Char → Bool
  | [] => false
  | c :: cs => (matchCI scoreMarker (c :: cs)).isSome || containsMarkerL cs

/-- `String.prototype.trim` right half: remove trailing JS whitespace. -/
def trimRightWs : List Char → List Char
  | [] => []
  | c :: cs =>
    let r := trimRightWs cs
    if r.isEmpty then (if isJsWhitespace c then [] else [c]) else c :: r

/-- `String.prototype.trim` on the underlying character list. -/
def jsTrimData (l : List Char) : List Char :=
  trimRightWs (l.dropWhile isJsWhitespace)

/-- `String.prototype.trim`. -/
def jsTrim (s : String) : String :=
  ⟨jsTrimData s.data⟩

/-- `reply.replace(/\*\*/g, "")`: remove every non-overlapping pair of
asterisks, scanning left to right. -/
def stripBold : List Char → List Char
  | [] => []
  | [c] => [c]
  | c1 :: c2 :: rest =>
    if c1 = '*' ∧ c2 = '*' then stripBold rest
    else c1 :: stripBold (c2 :: rest)

/-- The interview-results page cleaning step:
`reply.replace(/\*\*/g, "").trim()`. -/
def cleanReply (r : String) : String :=
  jsTrim ⟨stripBold r.data⟩

/-- Whether a character list contains two adjacent asterisks, i.e. an
occurrence of the substring `**`. -/
def hasDoubleStar : List Char → Bool
  | c1 :: c2 :: rest => (c1 = '*' && c2 = '*') || hasDoubleStar (c2 :: rest)
  | _ => false

/-- Text after the first case-insensitive occurrence of a literal pattern,
or `none` when the pattern does not occur: the capture start of
`/PAT:([\s\S]*?).../i`. -/
def afterMarker (pat : List Char) : List Char → Option (List Char)
  | [] => matchCI pat []
  | c :: cs =>
    match matchCI pat (c :: cs) with
    | some rest => some rest
    | none => afterMarker pat cs

/-- Text up to (excluding) the first case-insensitive occurrence of a
literal pattern, or the whole text when the pattern does not occur: the
lazy capture `([\s\S]*?)` bounded by the lookahead `(?=PAT|$)`. -/
def upToMarker (pat : List Char) : List Char → List Char
  | [] => []
  | c :: cs =>
    if (matchCI pat (c :: cs)).isSome then []
    else c :: upToMarker pat cs

def strengthsMarker : List Char := "strengths:".data

def improvementsMarker : List Char := "improvements:".data

def summaryMarker : List Char := "summary:".data

/-- `summary.match(/STRENGTHS:([\s\S]*?)(?=IMPROVEMENTS:|$)/i)` followed by
`match[1].trim()`, defaulting to the empty string. -/
def strengthsOf (t : String) : String :=
  match afterMarker strengthsMarker t.data with
  | none => ""
  | some rest => jsTrim ⟨upToMarker improvementsMarker rest⟩

/-- `summary.match(/IMPROVEMENTS:([\s\S]*?)(?=SUMMARY:|$)/i)` followed by
`match[1].trim()`, defaulting to the empty string. -/
def improvementsOf (t : String) : String :=
  match afterMarker improvementsMarker t.data with
  | none => ""
  | some rest => jsTrim ⟨upToMarker summaryMarker rest⟩

/-- `summary.match(/SUMMARY:([\s\S]*?)$/i)` followed by `match[1].trim()`,
defaulting to `summary?.trim() ?? ""` when the marker is absent. -/
def overallSummaryOf (t : String) : String :=
  match afterMarker summaryMarker t.data with
  | none => jsTrim t
  | some rest => jsTrim ⟨rest⟩

/-- The JSON `reply` field of a backend response, as the client sees it:
absent (`undefined`), present but not a string, or a string. -/
inductive ReplyField where
  | missing : ReplyField
  | nonString : ReplyField
  | str : String → ReplyField
deriving DecidableEq, Repr

/-- Outcome of an HTTP round trip from the client: the fetch threw (network
failure or unparsable JSON body), the status was not ok, or the body parsed
with the given `reply` field. -/
inductive HttpResult where
  | transportError : HttpResult
  | badStatus : HttpResult
  | success : ReplyField → HttpResult
deriving DecidableEq, Repr

/-- `FALLBACK_ANALYSIS` of the match-summary page (the template literal
after its `.trim()`). -/
def FALLBACK_ANALYSIS : String :=
  "SCORE: 78\n\nSTRENGTHS:\n- Strong alignment between your past experience and the core responsibilities of this role.\n- Clear motivation for working in a mission-driven / sustainability-focused organisation.\n- CV structure is clean and easy to scan, with relevant keywords likely to be picked up by ATS systems.\n- Demonstrated ownership of projects and measurable impact in previous roles.\n\nIMPROVEMENTS:\n- Tailor your profile summary to explicitly mention this company and the role title.\n- Reorder experience so the most relevant and recent items for this role appear at the top.\n- Add 2–3 bullet points under each role that quantify impact (numbers, % improvements, time saved, revenue, etc.).\n- Mirror key terms from the job description (tools, frameworks, responsibilities) where they genuinely match your experience.\n- Briefly highlight any sustainability-related initiatives, volunteering or side projects more prominently.\n\nSUMMARY:\n- Overall, you are a solid match for this role. With some light tailoring to this specific job description and company, your profile would likely stand out strongly in the initial screening.\n- Focus on making your most relevant skills and outcomes impossible to miss in the first half of your CV.\n- After these tweaks, your match score would likely increase further and your chances of moving to the interview stage should be significantly higher."

/-- Client-visible state of the match-summary page after `fetchSummary`
completes: the `analysis`, `score`, `error` and `usingFallback` states. -/
structure SummaryOutcome where
  analysis : String
  score : Option Int
  errorSet : Bool
  usingFallback : Bool
deriving DecidableEq, Repr

/-- `applySummary(reply)` on the match-summary page reached from the live
path: stores the reply and parses the score. -/
def summarySuccess (reply : String) : SummaryOutcome :=
  { analysis := reply, score := parseScore reply
    errorSet := false, usingFallback := false }

/-- `applyFallback(reason)` on the match-summary page: records an error,
marks the fallback, and applies `applySummary(FALLBACK_ANALYSIS)`. -/
def summaryFallback : SummaryOutcome :=
  { analysis := FALLBACK_ANALYSIS, score := parseScore FALLBACK_ANALYSIS
    errorSet := true, usingFallback := true }

/-- The ok-status branch of the match-summary page `fetchSummary`:
`const reply = (data.reply || "").trim(); if (!reply) applyFallback(...)`.
A non-string truthy `reply` field throws in `.trim()` and is caught by the
surrounding `catch`, which also calls `applyFallback`. -/
def handleSuccess1 : ReplyField → SummaryOutcome
  | .missing => summaryFallback
  | .nonString => summaryFallback
  | .str s => if jsTrim s = "" then summaryFallback else summarySuccess (jsTrim s)

/-- `fetchSummary` of the match-summary page: no stored session id, a
thrown fetch, a non-ok status and an empty reply all end in
`applyFallback`; otherwise the live reply is applied. -/
def fetchSummary1 (sessionId : Option String) (res : HttpResult) : SummaryOutcome :=
  match sessionId with
  | none => summaryFallback
  | some _ =>
    match res with
    | .transportError => summaryFallback
    | .badStatus => summaryFallback
    | .success f => handleSuccess1 f

/-- The failure cases of the match-summary fetch named by the spec: no
stored session id, non-success HTTP status, thrown transport error, or a
reply that is absent, non-string or empty after trimming. -/
def isFailureEnv (sessionId : Option String) (res : HttpResult) : Bool :=
  sessionId.isNone ||
  match res with
  | .transportError => true
  | .badStatus => true
  | .success .missing => true
  | .success .nonString => true
  | .success (.str s) => jsTrim s == ""

/-- `FALLBACK_SUMMARY` of the interview-results page (the template literal
after its `.trim()`). -/
def FALLBACK_SUMMARY : String :=
  "Your interview summary is not available, so here is an example:\n\nSCORE: 72\n\nSTRENGTHS:\n- You communicate clearly and stay on topic.\n- You provide relevant examples that match the questions.\n- Your motivation for the role comes across as genuine.\n\nIMPROVEMENTS:\n- Add more concrete metrics and outcomes to your stories.\n- Use a clearer structure (STAR) for behavioral questions.\n- Make the link between your experience and this specific role more explicit.\n\nSUMMARY:\nOverall, you have a strong foundation and good communication skills. With a bit more focus on structure, impact, and tailoring your answers to the job description, you can significantly improve your interview performance."

/-- Client-visible state of the interview-results page after its
`fetchSummary` completes. -/
structure ResultsOutcome where
  summary : String
  score : Option Int
  errorSet : Bool
deriving DecidableEq, Repr

/-- `applySummary(reply)` on the interview-results page: strips `**`,
trims, stores the cleaned text and parses the score from it.  `errorSet`
records whether the caller reported an error before applying. -/
def applySummaryResults (reply : String) (errorSet : Bool) : ResultsOutcome :=
  { summary := cleanReply reply, score := parseScore (cleanReply reply)
    errorSet := errorSet }

/-- The ok-status branch of the interview-results `fetchSummary`:
`if (!data.reply || typeof data.reply !== "string")` reports an error and
applies the fallback text; otherwise the live reply is applied. -/
def handleSuccessResults : ReplyField → ResultsOutcome
  | .missing => applySummaryResults FALLBACK_SUMMARY true
  | .nonString => applySummaryResults FALLBACK_SUMMARY true
  | .str s =>
    if s = "" then applySummaryResults FALLBACK_SUMMARY true
    else applySummaryResults s false

/-- `fetchSummary` of the interview-results page. -/
def fetchSummaryResults (sessionId : Option String) (res : HttpResult) : ResultsOutcome :=
  match sessionId with
  | none => applySummaryResults FALLBACK_SUMMARY true
  | some _ =>
    match res with
    | .transportError => applySummaryResults FALLBACK_SUMMARY true
    | .badStatus => applySummaryResults FALLBACK_SUMMARY true
    | .success f => handleSuccessResults f

/-- `TOTAL_QUESTIONS` of the interview page. -/
def TOTAL_QUESTIONS : Nat := 3

/-- State of the interview page relevant to question sequencing:
`questionIndex` and `isFinished` React state, the
`processingUploadRef` guard flag, the recorded `error`, and the
`nextQuestionOverrideRef`. -/
structure PageState where
  questionIndex : Nat
  isFinished : Bool
  processing : Bool
  errorMsg : Option String
  nextOverride : Option String
deriving DecidableEq, Repr

/-- The interview page initial state: `questionIndex = 1`, not finished,
no upload in flight. -/
def initialPageState : PageState :=
  { questionIndex := 1, isFinished := false, processing := false
    errorMsg := none, nextOverride := none }

/-- The `useEffect` on `questionIndex`: when the index exceeds
`TOTAL_QUESTIONS` it sets `isFinished`; it never unsets it. -/
def questionIndexEffect (s : PageState) : PageState :=
  if TOTAL_QUESTIONS < s.questionIndex then { s with isFinished := true } else s

/-- `setQuestionIndex((prev) => prev + 1)` followed by the
`questionIndex` effect. -/
def advanceQuestion (s : PageState) : PageState :=
  questionIndexEffect { s with questionIndex := s.questionIndex + 1 }

/-- Environment of one `uploadAnswer` call: the stored session id, the
recorded audio blob (`none` for a `null` blob, otherwise its byte size)
and the backend response to the upload request. -/
structure UploadEnv where
  sessionId : Option String
  audio : Option Nat
  server : HttpResult
deriving DecidableEq, Repr

/-- `reply.reply || Question(questionIndex + 1)`: the next-question text
stored into `nextQuestionOverrideRef` on a successful upload. -/
def nextQuestionText (f : ReplyField) (nextIdx : Nat) : String :=
  match f with
  | .str s => if s = "" then "Question " ++ toString nextIdx else s
  | _ => "Question " ++ toString nextIdx

/-- The error message thrown for a missing or empty audio blob. -/
def noAudioMsg : String := "No audio captured for this answer. Please re-record."

/-- `uploadAnswer(audioBlob)` of the interview page, as a state
transformer.  The second component records whether a network request was
issued.  Paths, following the source: the `processingUploadRef` guard
returns immediately; without a session id the index advances locally; with
a session id the guard flag is set, a missing/empty blob throws (caught:
error recorded, no advance), a failed request records the error, and a
successful request stores the next question and advances the index; the
`finally` block always clears the guard flag. -/
def uploadAnswer (env : UploadEnv) (s : PageState) : PageState × Bool :=
  if s.processing then (s, false)
  else
    match env.sessionId with
    | none => (advanceQuestion s, false)
    | some _ =>
      match env.audio with
      | none => ({ s with errorMsg := some noAudioMsg, processing := false }, false)
      | some 0 => ({ s with errorMsg := some noAudioMsg, processing := false }, false)
      | some _ =>
        match env.server with
        | .transportError =>
          ({ s with errorMsg := some "Failed to upload answer.", processing := false }, true)
        | .badStatus =>
          ({ s with errorMsg := some "Failed to upload answer.", processing := false }, true)
        | .success f =>
          (advanceQuestion
            { s with errorMsg := none
                     nextOverride := some (nextQuestionText f (s.questionIndex + 1))
                     processing := false }, true)

/-- The recorder `stop` event handler: it returns immediately when the
guard flag is set, otherwise hands the blob to `uploadAnswer`. -/
def recorderStop (env : UploadEnv) (s : PageState) : PageState × Bool :=
  if s.processing then (s, false) else uploadAnswer env s

/-- The submissions on which `uploadAnswer` advances the question index:
no stored session id (local practice advance), or a non-empty audio blob
whose upload request succeeds. -/
def isSuccessEnv (env : UploadEnv) : Bool :=
  env.sessionId.isNone ||
  ((match env.audio with | some (_ + 1) => true | _ => false) &&
   (match env.server with | .success _ => true | _ => false))

/-- One step of a sequence of `uploadAnswer` calls. -/
def uploadStep (s : PageState) (env : UploadEnv) : PageState :=
  (uploadAnswer env s).1

/-- Result of the upload page `handleSubmit`: rejected with an error
message, or the submission proceeds with the form-data fields. -/
inductive SubmitResult where
  | rejected : String → SubmitResult
  | proceeds : String → String → String → SubmitResult
deriving DecidableEq, Repr

/-- `handleSubmit` of the upload page: requires a CV file and a
non-blank job description, then submits CV, job description and company
details (the latter possibly empty). -/
def handleSubmit : Option String → String → String → SubmitResult
  | none, _, _ => .rejected "Please upload your CV first."
  | some cv, jobDescription, companyDetails =>
    if jsTrim jobDescription = "" then .rejected "Please paste the job description."
    else .proceeds cv jobDescription companyDetails

def interviewerBehaviorOptions : List String :=
  ["Supportive & coaching", "Neutral & professional", "Challenging & direct"]

def difficultyOptions : List String :=
  ["Easy / warm-up", "Standard role-level", "Hard / stretch"]

def focusOptions : List String := ["More behavioral", "Balanced", "More technical"]

/-- `Array.prototype.indexOf`, accumulating the current index. -/
def jsIndexOfAux (s : String) : List String → Int → Int
  | [], _ => -1
  | x :: xs, i => if x = s then i else jsIndexOfAux s xs (i + 1)

/-- `Array.prototype.indexOf`: first index of `s`, `-1` when absent. -/
def jsIndexOf (l : List String) (s : String) : Int :=
  jsIndexOfAux s l 0

/-- `handleStartInterview` of the interview-setup page: with all three
selections and a stored session id it sends the body
`[focusIdx + 1, behaviorIdx + 1, difficultyIdx + 1]`; otherwise no request
is sent (`none`). -/
def handleStartInterview (focus behavior difficulty sessionId : Option String) :
    Option (List Int) :=
  match behavior, difficulty, focus with
  | some b, some d, some f =>
    match sessionId with
    | none => none
    | some _ =>
      some [jsIndexOf focusOptions f + 1,
            jsIndexOf interviewerBehaviorOptions b + 1,
            jsIndexOf difficultyOptions d + 1]
  | _, _, _ => none

/-! ### Lemmas about the `SCORE:` regex model -/

lemma matchCI_append_cases (pat : List Char) :
    ∀ l r : List Char, matchCI pat (l ++ r) ≠ none →
      matchCI pat l ≠ none ∨ l.length < pat.length := by
  induction pat with
  | nil => intro l r _; left; simp [matchCI]
  | cons p ps ih =>
    intro l r h
    cases l with
    | nil => right; simp
    | cons c cs =>
      by_cases hc : c.toLower = p
      · have h' : matchCI ps (cs ++ r) ≠ none := by
          simpa [matchCI, hc] using h
        rcases ih cs r h' with h1 | h2
        · left; simpa [matchCI, hc] using h1
        · right; simpa using Nat.succ_lt_succ h2
      · exfalso; exact h (by simp [matchCI, hc])

lemma matchCI_S_cons (p : Char) (ps r : List Char) (hp : p ≠ 's') :
    matchCI (p :: ps) ('S' :: r) = none := by
  have h : 'S'.toLower = 's' := by decide
  simp only [matchCI, h]
  rw [if_neg (Ne.symm hp)]

lemma matchCI_marker_straddle (l r : List Char) (hne : l ≠ []) (hlen : l.length < 6) :
    matchCI scoreMarker (l ++ 'S' :: r) = none := by
  have h1 := matchCI_S_cons 'c' ['o', 'r', 'e', ':'] r (by decide)
  have h2 := matchCI_S_cons 'o' ['r', 'e', ':'] r (by decide)
  have h3 := matchCI_S_cons 'r' ['e', ':'] r (by decide)
  have h4 := matchCI_S_cons 'e' [':'] r (by decide)
  have h5 := matchCI_S_cons ':' [] r (by decide)
  cases l with
  | nil => exact absurd rfl hne
  | cons a l1 =>
  cases l1 with
  | nil =>
    rw [show matchCI scoreMarker ([a] ++ 'S' :: r) =
      (if a.toLower = 's' then matchCI ['c', 'o', 'r', 'e', ':'] ('S' :: r) else none) from rfl,
      h1, ite_self]
  | cons b l2 =>
  cases l2 with
  | nil =>
    rw [show matchCI scoreMarker ([a, b] ++ 'S' :: r) =
      (if a.toLower = 's' then
        (if b.toLower = 'c' then matchCI ['o', 'r', 'e', ':'] ('S' :: r) else none)
       else none) from rfl, h2, ite_self, ite_self]
  | cons c l3 =>
  cases l3 with
  | nil =>
    rw [show matchCI scoreMarker ([a, b, c] ++ 'S' :: r) =
      (if a.toLower = 's' then
        (if b.toLower = 'c' then
          (if c.toLower = 'o' then matchCI ['r', 'e', ':'] ('S' :: r) else none)
         else none)
       else none) from rfl, h3, ite_self, ite_self, ite_self]
  | cons d l4 =>
  cases l4 with
  | nil =>
    rw [show matchCI scoreMarker ([a, b, c, d] ++ 'S' :: r) =
      (if a.toLower = 's' then
        (if b.toLower = 'c' then
          (if c.toLower = 'o' then
            (if d.toLower = 'r' then matchCI ['e', ':'] ('S' :: r) else none)
           else none)
         else none)
       else none) from rfl, h4, ite_self, ite_self, ite_self, ite_self]
  | cons e l5 =>
  cases l5 with
  | nil =>
    rw [show matchCI scoreMarker ([a, b, c, d, e] ++ 'S' :: r) =
      (if a.toLower = 's' then
        (if b.toLower = 'c' then
          (if c.toLower = 'o' then
            (if d.toLower = 'r' then
              (if e.toLower = 'e' then matchCI [':'] ('S' :: r) else none)
             else none)
           else none)
         else none)
       else none) from rfl, h5, ite_self, ite_self, ite_self, ite_self, ite_self]
  | cons f l6 => simp only [List.length_cons] at hlen; omega

lemma tryScoreAt_eq_none (cs : List Char) (h : matchCI scoreMarker cs = none) :
    tryScoreAt cs = none := by
  simp [tryScoreAt, h]

lemma containsMarkerL_cons_false {c : Char} {cs : List Char}
    (h : containsMarkerL (c :: cs) = false) :
    matchCI scoreMarker (c :: cs) = none ∧ containsMarkerL cs = false := by
  simp only [containsMarkerL, Bool.or_eq_false_iff] at h
  obtain ⟨h1, h2⟩ := h
  refine ⟨?_, h2⟩
  cases hm : matchCI scoreMarker (c :: cs) with
  | none => rfl
  | some rest => rw [hm] at h1; simp at h1

lemma findScore_eq_none (cs : List Char) (h : containsMarkerL cs = false) :
    findScore cs = none := by
  induction cs with
  | nil => rfl
  | cons c cs ih =>
    obtain ⟨h1, h2⟩ := containsMarkerL_cons_false h
    simp [findScore, tryScoreAt_eq_none _ h1, ih h2]

lemma findScore_cons_of_none {c : Char} {cs : List Char}
    (h : tryScoreAt (c :: cs) = none) :
    findScore (c :: cs) = findScore cs := by
  simp [findScore, h]

lemma findScore_append_of_noMarker (p : List Char) :
    ∀ rest : List Char, containsMarkerL p = false → (∃ r', rest = 'S' :: r') →
      findScore (p ++ rest) = findScore rest := by
  induction p with
  | nil => intro rest _ _; rfl
  | cons c cs ih =>
    intro rest hnm hr
    obtain ⟨h1, h2⟩ := containsMarkerL_cons_false hnm
    obtain ⟨r', rfl⟩ := hr
    have hmm : matchCI scoreMarker ((c :: cs) ++ 'S' :: r') = none := by
      by_contra h
      rcases matchCI_append_cases scoreMarker (c :: cs) ('S' :: r') h with h' | h'
      · exact h' h1
      · exact h (matchCI_marker_straddle (c :: cs) r' (by simp)
          (by simpa [scoreMarker] using h'))
    have ht : tryScoreAt (c :: (cs ++ 'S' :: r')) = none := by
      apply tryScoreAt_eq_none
      simpa using hmm
    calc findScore ((c :: cs) ++ 'S' :: r')
        = findScore (cs ++ 'S' :: r') := findScore_cons_of_none ht
      _ = findScore ('S' :: r') := ih ('S' :: r') h2 ⟨r', rfl⟩

lemma isJsWhitespace_eq_false_of_digit {c : Char} (h : isAsciiDigit c = true) :
    isJsWhitespace c = false := by
  simp only [isAsciiDigit, Bool.and_eq_true, decide_eq_true_eq] at h
  simp only [isJsWhitespace, Bool.or_eq_false_iff, Bool.and_eq_false_iff,
    decide_eq_false_iff_not]
  omega

lemma dropJsWs_of_head_digit {c : Char} (l : List Char) (h : isAsciiDigit c = true) :
    dropJsWs (c :: l) = c :: l := by
  simp [dropJsWs, isJsWhitespace_eq_false_of_digit h]

lemma takeDigitsUpTo_nonDigit (n : Nat) (l : List Char)
    (h : ∀ c, l.head? = some c → isAsciiDigit c = false) :
    takeDigitsUpTo n l = [] := by
  cases n with
  | zero => cases l with | nil => rfl | cons c cs => rfl
  | succ m =>
    cases l with
    | nil => rfl
    | cons c cs => simp [takeDigitsUpTo, h c rfl]

lemma takeDigitsUpTo_append (ds t : List Char) :
    ∀ n : Nat, ds.length ≤ n → (∀ c ∈ ds, isAsciiDigit c = true) →
      takeDigitsUpTo n (ds ++ t) = ds ++ takeDigitsUpTo (n - ds.length) t := by
  induction ds with
  | nil => intro n _ _; simp
  | cons c cs ih =>
    intro n hlen hd
    cases n with
    | zero => simp at hlen
    | succ m =>
      have hc := hd c (by simp)
      have ihx := ih m (by simpa using hlen) (fun x hx => hd x (by simp [hx]))
      show takeDigitsUpTo (m + 1) (c :: (cs ++ t)) =
        c :: (cs ++ takeDigitsUpTo (m + 1 - (cs.length + 1)) t)
      rw [show takeDigitsUpTo (m + 1) (c :: (cs ++ t)) =
        (if isAsciiDigit c = true then c :: takeDigitsUpTo m (cs ++ t) else []) from rfl]
      rw [if_pos hc, ihx, Nat.succ_sub_succ]

lemma tryScoreAt_assembled (ds s' : List Char)
    (hne : ds ≠ []) (hlen : ds.length ≤ 3)
    (hd : ∀ c ∈ ds, isAsciiDigit c = true)
    (hs : ∀ c, s'.head? = some c → isAsciiDigit c = false) :
    tryScoreAt ('S' :: 'C' :: 'O' :: 'R' :: 'E' :: ':' :: ' ' :: (ds ++ s')) = some ds := by
  obtain ⟨d, ds', rfl⟩ := List.exists_cons_of_ne_nil hne
  have hd1 : isAsciiDigit d = true := hd d (by simp)
  have h1 : tryScoreAt ('S' :: 'C' :: 'O' :: 'R' :: 'E' :: ':' :: ' ' :: ((d :: ds') ++ s')) =
      (match dropJsWs (' ' :: ((d :: ds') ++ s')) with
       | [] => none
       | c :: cs' => if isAsciiDigit c = true then some (takeDigitsUpTo 3 (c :: cs')) else none) :=
    rfl
  have hws : dropJsWs (' ' :: ((d :: ds') ++ s')) = d :: (ds' ++ s') := by
    show dropJsWs ((d :: ds') ++ s') = d :: (ds' ++ s')
    simpa using dropJsWs_of_head_digit (ds' ++ s') hd1
  have htake : takeDigitsUpTo 3 ((d :: ds') ++ s') =
      (d :: ds') ++ takeDigitsUpTo (3 - (d :: ds').length) s' :=
    takeDigitsUpTo_append (d :: ds') s' 3 hlen hd
  have hrest : takeDigitsUpTo (3 - (d :: ds').length) s' = [] :=
    takeDigitsUpTo_nonDigit _ _ hs
  rw [hrest, List.append_nil] at htake
  rw [h1, hws]
  show (if isAsciiDigit d = true then some (takeDigitsUpTo 3 (d :: (ds' ++ s'))) else none) =
    some (d :: ds')
  rw [if_pos hd1, show d :: (ds' ++ s') = (d :: ds') ++ s' from rfl, htake]

lemma takeDigitsUpTo_length (n : Nat) :
    ∀ l : List Char, (takeDigitsUpTo n l).length ≤ n := by
  induction n with
  | zero => intro l; simp [takeDigitsUpTo]
  | succ m ih =>
    intro l
    cases l with
    | nil => simp [takeDigitsUpTo]
    | cons c cs =>
      by_cases h : isAsciiDigit c
      · simpa [takeDigitsUpTo, h] using ih cs
      · simp [takeDigitsUpTo, h]

lemma takeDigitsUpTo_digits (n : Nat) :
    ∀ l : List Char, ∀ c ∈ takeDigitsUpTo n l, isAsciiDigit c = true := by
  induction n with
  | zero => intro l c hc; simp [takeDigitsUpTo] at hc
  | succ m ih =>
    intro l c hc
    cases l with
    | nil => simp [takeDigitsUpTo] at hc
    | cons a cs =>
      by_cases h : isAsciiDigit a
      · simp only [takeDigitsUpTo, h, if_true, List.mem_cons] at hc
        rcases hc with rfl | hc
        · exact h
        · exact ih cs c hc
      · simp [takeDigitsUpTo, h] at hc

lemma tryScoreAt_spec (cs ds : List Char) (h : tryScoreAt cs = some ds) :
    ds.length ≤ 3 ∧ ∀ c ∈ ds, isAsciiDigit c = true := by
  unfold tryScoreAt at h
  cases hm : matchCI scoreMarker cs with
  | none => simp [hm] at h
  | some rest =>
    simp only [hm] at h
    cases hw : dropJsWs rest with
    | nil => simp [hw] at h
    | cons c cs' =>
      simp only [hw] at h
      by_cases hc : isAsciiDigit c = true
      · rw [if_pos hc] at h
        obtain rfl : takeDigitsUpTo 3 (c :: cs') = ds := by simpa using h
        exact ⟨takeDigitsUpTo_length 3 _, takeDigitsUpTo_digits 3 _⟩
      · rw [if_neg hc] at h; simp at h

lemma findScore_spec (cs : List Char) :
    ∀ ds : List Char, findScore cs = some ds →
      ds.length ≤ 3 ∧ ∀ c ∈ ds, isAsciiDigit c = true := by
  induction cs with
  | nil => intro ds h; exact absurd h (by simp [findScore])
  | cons c cs ih =>
    intro ds h
    cases ht : tryScoreAt (c :: cs) with
    | some ds' =>
      have : ds' = ds := by simpa [findScore, ht] using h
      exact this ▸ tryScoreAt_spec (c :: cs) ds' ht
    | none =>
      exact ih ds (by simpa [findScore, ht] using h)

lemma foldl_digits_lt (ds : List Char) :
    ∀ acc : Nat, (∀ c ∈ ds, isAsciiDigit c = true) →
      ds.foldl (fun a c => a * 10 + (c.toNat - 48)) acc < (acc + 1) * 10 ^ ds.length := by
  induction ds with
  | nil =>
    intro acc _
    simp only [List.foldl_nil, List.length_nil, pow_zero, Nat.mul_one]
    omega
  | cons c cs ih =>
    intro acc hd
    have hc : c.toNat ≤ 57 := by
      have := hd c (by simp)
      simp only [isAsciiDigit, Bool.and_eq_true, decide_eq_true_eq] at this
      exact this.2
    have h1 : acc * 10 + (c.toNat - 48) + 1 ≤ (acc + 1) * 10 := by omega
    calc (c :: cs).foldl (fun a c => a * 10 + (c.toNat - 48)) acc
        = cs.foldl (fun a c => a * 10 + (c.toNat - 48)) (acc * 10 + (c.toNat - 48)) := rfl
      _ < (acc * 10 + (c.toNat - 48) + 1) * 10 ^ cs.length :=
          ih _ (fun x hx => hd x (by simp [hx]))
      _ ≤ (acc + 1) * 10 * 10 ^ cs.length := by
          exact Nat.mul_le_mul_right _ h1
      _ = (acc + 1) * 10 ^ (c :: cs).length := by
          simp [List.length_cons, pow_succ]; ring

lemma digitsVal_nonneg (ds : List Char) : 0 ≤ digitsVal ds := by
  simp [digitsVal]

lemma digitsVal_le (ds : List Char) (hlen : ds.length ≤ 3)
    (hd : ∀ c ∈ ds, isAsciiDigit c = true) : digitsVal ds ≤ 999 := by
  have h := foldl_digits_lt ds 0 hd
  have h10 : (10 : Nat) ^ ds.length ≤ 10 ^ 3 :=
    Nat.pow_le_pow_right (by omega) hlen
  have : ds.foldl (fun a c => a * 10 + (c.toNat - 48)) 0 ≤ 999 := by
    simp only [Nat.one_mul] at h
    omega
  simpa [digitsVal] using Int.ofNat_le.mpr this

/-! ### Claim theorems: score parsing -/

/-- C1: For every model reply string, if it contains the `SCORE:` marker
followed (after whitespace) by a 1-3 digit number — and no earlier
occurrence of the marker — then the parsed score is that number clamped to
`[0, 100]`; if no `SCORE:` marker occurs in the reply at all, the parsed
score is `null`/UNKNOWN.  Parsing is a total function, so it never
crashes. -/
theorem score_parse_roundtrip :
    (∀ r : String, containsMarkerL r.data = false → parseScore r = none) ∧
    (∀ (p : String) (ds : List Char) (s : String),
      containsMarkerL p.data = false →
      ds ≠ [] → ds.length ≤ 3 → (∀ c ∈ ds, isAsciiDigit c = true) →
      (∀ c, s.data.head? = some c → isAsciiDigit c = false) →
      parseScore (p ++ "SCORE: " ++ String.mk ds ++ s) =
        some (max 0 (min 100 (digitsVal ds)))) := by
  constructor
  · intro r h
    simp [parseScore, findScore_eq_none r.data h]
  · intro p ds s hp hne hlen hd hs
    have hdata : (p ++ "SCORE: " ++ String.mk ds ++ s).data =
        p.data ++ ('S' :: 'C' :: 'O' :: 'R' :: 'E' :: ':' :: ' ' :: (ds ++ s.data)) := by
      simp [String.data_append]
    have htry := tryScoreAt_assembled ds s.data hne hlen hd hs
    have hfind : findScore (p ++ "SCORE: " ++ String.mk ds ++ s).data = some ds := by
      rw [hdata, findScore_append_of_noMarker p.data _ hp ⟨_, rfl⟩]
      simp [findScore, htry]
    simp only [parseScore]
    rw [hfind]
    rfl

/-- Witness for C1 at concrete inputs: a reply containing `SCORE: 85`
parses to 85, `SCORE: 140` clamps to 100, and a reply with no marker
parses to `none`. -/
theorem score_parse_roundtrip_witness :
    parseScore ("reply " ++ "SCORE: " ++ String.mk ['8', '5'] ++ " tail") =
      some (max 0 (min 100 (digitsVal ['8', '5']))) ∧
    parseScore ("reply " ++ "SCORE: " ++ String.mk ['1', '4', '0'] ++ " tail") =
      some (max 0 (min 100 (digitsVal ['1', '4', '0']))) ∧
    parseScore "no marker here" = none :=
  ⟨score_parse_roundtrip.2 "reply " ['8', '5'] " tail" (by decide) (by decide)
      (by decide) (by decide) (by decide),
   score_parse_roundtrip.2 "reply " ['1', '4', '0'] " tail" (by decide) (by decide)
      (by decide) (by decide) (by decide),
   score_parse_roundtrip.1 "no marker here" (by decide)⟩

/-- C9: Every path that sets the displayed score goes through the same
`applySummary` parse, so whenever the parsed score is non-null it lies in
`[0, 100]`; moreover the regex captures only 1-3 unsigned digits, so the
value before clamping is already in `[0, 999]` and the lower clamp to 0
never changes it. -/
theorem score_clamp_invariant :
    ∀ r : String,
      (∀ v : Int, parseScore r = some v → 0 ≤ v ∧ v ≤ 100) ∧
      (∀ ds : List Char, findScore r.data = some ds →
        ds.length ≤ 3 ∧ 0 ≤ digitsVal ds ∧ digitsVal ds ≤ 999 ∧
        max 0 (min 100 (digitsVal ds)) = min 100 (digitsVal ds)) := by
  intro r
  constructor
  · intro v hv
    simp only [parseScore, Option.map_eq_some'] at hv
    obtain ⟨ds, hds, rfl⟩ := hv
    obtain ⟨hlen, hd⟩ := findScore_spec r.data ds hds
    have h0 := digitsVal_nonneg ds
    have h9 := digitsVal_le ds hlen hd
    constructor
    · exact le_max_left 0 _
    · exact max_le (by omega) (min_le_left _ _)
  · intro ds hds
    obtain ⟨hlen, hd⟩ := findScore_spec r.data ds hds
    have h0 := digitsVal_nonneg ds
    have h9 := digitsVal_le ds hlen hd
    refine ⟨hlen, h0, h9, ?_⟩
    exact max_eq_right (le_min (by omega) h0)

/-- Witness for C9 at a concrete reply. -/
theorem score_clamp_invariant_witness :
    (0 ≤ (7 : Int) ∧ (7 : Int) ≤ 100) ∧
    (['7'].length ≤ 3 ∧ 0 ≤ digitsVal ['7'] ∧ digitsVal ['7'] ≤ 999 ∧
      max 0 (min 100 (digitsVal ['7'])) = min 100 (digitsVal ['7'])) :=
  ⟨(score_clamp_invariant "SCORE: 7").1 7 (by decide),
   (score_clamp_invariant "SCORE: 7").2 ['7'] (by decide)⟩

/-! ### Lemmas about `**` stripping and trimming -/

lemma stripBold_head_of_ne {c : Char} (rest : List Char) (hc : c ≠ '*') :
    (stripBold (c :: rest)).head? = some c := by
  cases rest with
  | nil => rfl
  | cons c3 rest' =>
    rw [show stripBold (c :: c3 :: rest') =
      (if c = '*' ∧ c3 = '*' then stripBold rest' else c :: stripBold (c3 :: rest'))
      from rfl]
    rw [if_neg (fun h => hc h.1)]
    rfl

lemma stripBold_no_double : ∀ l : List Char, hasDoubleStar (stripBold l) = false := by
  intro l
  induction l using stripBold.induct with
  | case1 => rfl
  | case2 c => rfl
  | case3 c1 c2 rest h ih =>
    rw [show stripBold (c1 :: c2 :: rest) =
      (if c1 = '*' ∧ c2 = '*' then stripBold rest else c1 :: stripBold (c2 :: rest))
      from rfl, if_pos h]
    exact ih
  | case4 c1 c2 rest h ih =>
    rw [show stripBold (c1 :: c2 :: rest) =
      (if c1 = '*' ∧ c2 = '*' then stripBold rest else c1 :: stripBold (c2 :: rest))
      from rfl, if_neg h]
    cases hX : stripBold (c2 :: rest) with
    | nil => rfl
    | cons d t =>
      rw [hX] at ih
      by_cases hc1 : c1 = '*'
      · have hc2 : c2 ≠ '*' := fun hc2 => h ⟨hc1, hc2⟩
        have hh := stripBold_head_of_ne rest hc2
        rw [hX] at hh
        have hd : d = c2 := by simpa using hh
        subst hd
        simp [hasDoubleStar, hc2, ih]
      · simp [hasDoubleStar, hc1, ih]

lemma hasDoubleStar_tail {c : Char} {l : List Char}
    (h : hasDoubleStar (c :: l) = false) : hasDoubleStar l = false := by
  cases l with
  | nil => rfl
  | cons d t =>
    simp only [hasDoubleStar, Bool.or_eq_false_iff] at h
    exact h.2

lemma hasDoubleStar_dropWhile (p : Char → Bool) :
    ∀ l : List Char, hasDoubleStar l = false →
      hasDoubleStar (l.dropWhile p) = false := by
  intro l
  induction l with
  | nil => intro h; exact h
  | cons c cs ih =>
    intro h
    by_cases hp : p c
    · rw [List.dropWhile_cons_of_pos hp]
      exact ih (hasDoubleStar_tail h)
    · rw [List.dropWhile_cons_of_neg hp]
      exact h

lemma trimRightWs_head : ∀ l : List Char, trimRightWs l ≠ [] →
    (trimRightWs l).head? = l.head? := by
  intro l
  induction l with
  | nil => intro h; exact absurd rfl h
  | cons c cs _ =>
    intro hne
    show (let r := trimRightWs cs;
      if r.isEmpty then (if isJsWhitespace c then [] else [c]) else c :: r).head? =
      (c :: cs).head?
    cases hr : trimRightWs cs with
    | nil =>
      by_cases hc : isJsWhitespace c
      · exfalso
        apply hne
        show (let r := trimRightWs cs;
          if r.isEmpty then (if isJsWhitespace c then [] else [c]) else c :: r) = []
        rw [hr]
        simp [hc]
      · simp [hr, hc]
    | cons d t => simp [hr]

lemma trimRightWs_eq_nil : trimRightWs [] = [] := rfl

lemma hasDoubleStar_trimRight : ∀ l : List Char, hasDoubleStar l = false →
    hasDoubleStar (trimRightWs l) = false := by
  intro l
  induction l with
  | nil => intro h; exact h
  | cons c cs ih =>
    intro h
    have ih2 := ih (hasDoubleStar_tail h)
    show hasDoubleStar (let r := trimRightWs cs;
      if r.isEmpty then (if isJsWhitespace c then [] else [c]) else c :: r) = false
    cases hr : trimRightWs cs with
    | nil =>
      by_cases hc : isJsWhitespace c
      · simp [hr, hc, hasDoubleStar]
      · simp [hr, hc, hasDoubleStar]
    | cons d t =>
      simp only [hr, List.isEmpty_cons, if_neg]
      rw [hr] at ih2
      have hcs : cs ≠ [] := by
        intro hcs
        rw [hcs, trimRightWs_eq_nil] at hr
        exact absurd hr (by simp)
      obtain ⟨e, cs', rfl⟩ := List.exists_cons_of_ne_nil hcs
      have hh : (trimRightWs (e :: cs')).head? = some e :=
        trimRightWs_head (e :: cs') (by rw [hr]; simp)
      rw [hr] at hh
      have hd : d = e := by simpa using hh
      subst hd
      have h1 : (decide (c = '*') && decide (d = '*')) = false := by
        simp only [hasDoubleStar, Bool.or_eq_false_iff] at h
        exact h.1
      simp [hasDoubleStar, ih2]
      intro hc
      simpa [hc] using h1

lemma hasDoubleStar_jsTrimData (l : List Char) (h : hasDoubleStar l = false) :
    hasDoubleStar (jsTrimData l) = false :=
  hasDoubleStar_trimRight _ (hasDoubleStar_dropWhile _ _ h)

lemma head_dropWhile_false (p : Char → Bool) :
    ∀ l : List Char, ∀ c, (l.dropWhile p).head? = some c → p c = false := by
  intro l
  induction l with
  | nil => intro c h; simp at h
  | cons a as ih =>
    intro c h
    by_cases hp : p a
    · rw [List.dropWhile_cons_of_pos hp] at h
      exact ih c h
    · rw [List.dropWhile_cons_of_neg hp] at h
      obtain rfl : a = c := by simpa using h
      simpa using hp

lemma dropWhile_of_head_false (p : Char → Bool) (l : List Char) (c : Char)
    (hh : l.head? = some c) (hc : p c = false) : l.dropWhile p = l := by
  cases l with
  | nil => simp at hh
  | cons a as =>
    obtain rfl : a = c := by simpa using hh
    rw [List.dropWhile_cons_of_neg (by simp [hc])]

lemma trimRightWs_idem : ∀ l : List Char, trimRightWs (trimRightWs l) = trimRightWs l := by
  intro l
  induction l with
  | nil => rfl
  | cons c cs ih =>
    show trimRightWs (let r := trimRightWs cs;
      if r.isEmpty then (if isJsWhitespace c then [] else [c]) else c :: r) =
      (let r := trimRightWs cs;
      if r.isEmpty then (if isJsWhitespace c then [] else [c]) else c :: r)
    cases hr : trimRightWs cs with
    | nil =>
      by_cases hc : isJsWhitespace c
      · simp [hc, trimRightWs_eq_nil]
      · simp only [List.isEmpty_nil, if_true, if_neg hc]
        show trimRightWs [c] = [c]
        show (let r := trimRightWs ([] : List Char);
          if r.isEmpty then (if isJsWhitespace c then [] else [c]) else c :: r) = [c]
        simp [trimRightWs_eq_nil, hc]
    | cons d t =>
      rw [hr] at ih
      simp only [List.isEmpty_cons, if_neg]
      show trimRightWs (c :: d :: t) = c :: d :: t
      show (let r := trimRightWs (d :: t);
        if r.isEmpty then (if isJsWhitespace c then [] else [c]) else c :: r) =
        c :: d :: t
      rw [ih]
      simp

lemma jsTrimData_idem (l : List Char) : jsTrimData (jsTrimData l) = jsTrimData l := by
  unfold jsTrimData
  cases hr : trimRightWs (l.dropWhile isJsWhitespace) with
  | nil => simp [trimRightWs_eq_nil]
  | cons d t =>
    have hh : (trimRightWs (l.dropWhile isJsWhitespace)).head? =
        (l.dropWhile isJsWhitespace).head? := by
      apply trimRightWs_head
      rw [hr]; simp
    rw [hr] at hh
    have hd : (l.dropWhile isJsWhitespace).head? = some d := by
      rw [← hh]; rfl
    have hws : isJsWhitespace d = false :=
      head_dropWhile_false isJsWhitespace l d hd
    rw [dropWhile_of_head_false isJsWhitespace (d :: t) d rfl hws]
    have := trimRightWs_idem (l.dropWhile isJsWhitespace)
    rw [hr] at this
    exact this

lemma jsTrim_idem (s : String) : jsTrim (jsTrim s) = jsTrim s := by
  show (⟨jsTrimData (jsTrimData s.data)⟩ : String) = ⟨jsTrimData s.data⟩
  rw [jsTrimData_idem]

lemma cleanReply_trimmed (r : String) : jsTrim (cleanReply r) = cleanReply r :=
  jsTrim_idem _

/-- C10: On the interview-results page, every occurrence of `**` is
removed from the reply before any parsing (the cleaned reply contains no
`**`), and section extraction is asymmetric: a missing `SUMMARY:` marker
makes the whole cleaned reply the overall summary, while a missing
`STRENGTHS:` or `IMPROVEMENTS:` marker yields an empty (hidden)
section. -/
theorem results_clean_and_sections :
    ∀ r : String,
      hasDoubleStar (cleanReply r).data = false ∧
      (afterMarker summaryMarker (cleanReply r).data = none →
        overallSummaryOf (cleanReply r) = cleanReply r) ∧
      (afterMarker strengthsMarker (cleanReply r).data = none →
        strengthsOf (cleanReply r) = "") ∧
      (afterMarker improvementsMarker (cleanReply r).data = none →
        improvementsOf (cleanReply r) = "") := by
  intro r
  refine ⟨?_, ?_, ?_, ?_⟩
  · exact hasDoubleStar_jsTrimData _ (stripBold_no_double r.data)
  · intro h
    unfold overallSummaryOf
    rw [h]
    exact cleanReply_trimmed r
  · intro h
    unfold strengthsOf
    rw [h]
  · intro h
    unfold improvementsOf
    rw [h]

/-- Witness for C10 at a concrete reply without any section markers. -/
theorem results_clean_and_sections_witness :
    overallSummaryOf (cleanReply "**hello** world") = cleanReply "**hello** world" ∧
    strengthsOf (cleanReply "**hello** world") = "" ∧
    improvementsOf (cleanReply "**hello** world") = "" :=
  ⟨(results_clean_and_sections "**hello** world").2.1 (by decide),
   (results_clean_and_sections "**hello** world").2.2.1 (by decide),
   (results_clean_and_sections "**hello** world").2.2.2 (by decide)⟩

/-! ### Claim theorems: fetch error handling and fallback -/

/-- C5: For every failure outcome of the match-summary fetch — no stored
session id, non-success HTTP status, thrown transport error, or an
absent/unusable/empty reply — the client substitutes the pre-written
fallback analysis text and marks it as fallback; in every case the
displayed analysis is non-empty after loading completes. -/
theorem summary_fallback_never_empty :
    ∀ (sessionId : Option String) (res : HttpResult),
      (isFailureEnv sessionId res = true →
        (fetchSummary1 sessionId res).usingFallback = true ∧
        (fetchSummary1 sessionId res).analysis = FALLBACK_ANALYSIS) ∧
      (isFailureEnv sessionId res = false →
        (fetchSummary1 sessionId res).usingFallback = false) ∧
      (fetchSummary1 sessionId res).analysis ≠ "" := by
  have hfb : FALLBACK_ANALYSIS ≠ "" := by decide
  intro sid res
  cases sid with
  | none => exact ⟨fun _ => ⟨rfl, rfl⟩, fun h => by simp [isFailureEnv] at h, hfb⟩
  | some sv =>
    cases res with
    | transportError => exact ⟨fun _ => ⟨rfl, rfl⟩, fun h => by simp [isFailureEnv] at h, hfb⟩
    | badStatus => exact ⟨fun _ => ⟨rfl, rfl⟩, fun h => by simp [isFailureEnv] at h, hfb⟩
    | success f =>
      cases f with
      | missing => exact ⟨fun _ => ⟨rfl, rfl⟩, fun h => by simp [isFailureEnv] at h, hfb⟩
      | nonString => exact ⟨fun _ => ⟨rfl, rfl⟩, fun h => by simp [isFailureEnv] at h, hfb⟩
      | str s =>
        by_cases h : jsTrim s = ""
        · refine ⟨fun _ => ?_, fun hf => ?_, ?_⟩
          · constructor
            · show (handleSuccess1 (.str s)).usingFallback = true
              simp [handleSuccess1, h, summaryFallback]
            · show (handleSuccess1 (.str s)).analysis = FALLBACK_ANALYSIS
              simp [handleSuccess1, h, summaryFallback]
          · exfalso
            simp [isFailureEnv, h] at hf
          · show (handleSuccess1 (.str s)).analysis ≠ ""
            simp only [handleSuccess1, if_pos h]
            exact hfb
        · refine ⟨fun hf => ?_, fun _ => ?_, ?_⟩
          · exfalso
            simp [isFailureEnv, h] at hf
          · show (handleSuccess1 (.str s)).usingFallback = false
            simp only [handleSuccess1, if_neg h]
            rfl
          · show (handleSuccess1 (.str s)).analysis ≠ ""
            simp only [handleSuccess1, if_neg h]
            exact h

/-- Witness for C5 at a concrete failure (no session id, bad status). -/
theorem summary_fallback_never_empty_witness :
    ((fetchSummary1 none .badStatus).usingFallback = true ∧
      (fetchSummary1 none .badStatus).analysis = FALLBACK_ANALYSIS) ∧
    (fetchSummary1 none .badStatus).analysis ≠ "" :=
  ⟨(summary_fallback_never_empty none .badStatus).1 (by decide),
   (summary_fallback_never_empty none .badStatus).2.2⟩

/-- C4 counterexample: on the interview-results page, a whitespace-only
reply (empty after trimming) passes the `!data.reply` check and is NOT
treated as a failure: no error is recorded (unlike every fallback path,
which sets the error) and the stored summary is the empty cleaned reply
rather than the fallback text. -/
theorem results_whitespace_reply_not_failure :
    jsTrim " " = "" ∧
    (handleSuccessResults (.str " ")).errorSet = false ∧
    (handleSuccessResults (.str " ")).summary = "" ∧
    (applySummaryResults FALLBACK_SUMMARY true).errorSet = true := by
  refine ⟨by decide, rfl, by decide, rfl⟩

/-- C4 (amended): On the match-summary page a success response whose
reply is absent, not a string, or empty after trimming is treated as a
failure (fallback substituted), and the displayed analysis is never the
empty string.  On the interview-results page only a reply that is absent,
not a string, or exactly the empty string is treated as a failure; a
whitespace-only reply is accepted as success. -/
theorem empty_reply_failure_amended :
    ∀ f : ReplyField,
      ((handleSuccess1 f).usingFallback = true ↔
        (f = .missing ∨ f = .nonString ∨ ∃ s, f = .str s ∧ jsTrim s = "")) ∧
      (handleSuccess1 f).analysis ≠ "" ∧
      ((handleSuccessResults f).errorSet = true ↔
        (f = .missing ∨ f = .nonString ∨ f = .str "")) := by
  have hfb : FALLBACK_ANALYSIS ≠ "" := by decide
  intro f
  cases f with
  | missing =>
    refine ⟨by simp [handleSuccess1, summaryFallback], hfb, ?_⟩
    simp [handleSuccessResults, applySummaryResults]
  | nonString =>
    refine ⟨by simp [handleSuccess1, summaryFallback], hfb, ?_⟩
    simp [handleSuccessResults, applySummaryResults]
  | str s =>
    refine ⟨?_, ?_, ?_⟩
    · by_cases h : jsTrim s = ""
      · simp only [handleSuccess1, if_pos h]
        simp [summaryFallback, h]
      · simp only [handleSuccess1, if_neg h]
        simp [summarySuccess]
        exact h
    · by_cases h : jsTrim s = ""
      · simp only [handleSuccess1, if_pos h]
        exact hfb
      · simp only [handleSuccess1, if_neg h]
        simpa [summarySuccess] using h
    · by_cases hs : s = ""
      · subst hs
        simp [handleSuccessResults, applySummaryResults]
      · simp [handleSuccessResults, hs, applySummaryResults]

/-- Witness for C4 (amended) at concrete replies. -/
theorem empty_reply_failure_amended_witness :
    (handleSuccess1 (.str "  ")).usingFallback = true ∧
    (handleSuccess1 (.str "live analysis")).analysis ≠ "" ∧
    (handleSuccessResults .missing).errorSet = true :=
  ⟨(empty_reply_failure_amended (.str "  ")).1.mpr
      (Or.inr (Or.inr ⟨"  ", rfl, by decide⟩)),
   (empty_reply_failure_amended (.str "live analysis")).2.1,
   (empty_reply_failure_amended .missing).2.2.mpr (Or.inl rfl)⟩

/-! ### Lemmas about the interview page state machine -/

lemma questionIndexEffect_questionIndex (s : PageState) :
    (questionIndexEffect s).questionIndex = s.questionIndex := by
  unfold questionIndexEffect; split <;> rfl

lemma questionIndexEffect_processing (s : PageState) :
    (questionIndexEffect s).processing = s.processing := by
  unfold questionIndexEffect; split <;> rfl

lemma advanceQuestion_questionIndex (s : PageState) :
    (advanceQuestion s).questionIndex = s.questionIndex + 1 := by
  unfold advanceQuestion
  rw [questionIndexEffect_questionIndex]

lemma advanceQuestion_processing (s : PageState) :
    (advanceQuestion s).processing = s.processing := by
  unfold advanceQuestion
  rw [questionIndexEffect_processing]

lemma advanceQuestion_isFinished (s : PageState) :
    (advanceQuestion s).isFinished =
      (s.isFinished || decide (TOTAL_QUESTIONS < s.questionIndex + 1)) := by
  unfold advanceQuestion questionIndexEffect
  by_cases h : TOTAL_QUESTIONS < s.questionIndex + 1
  · simp [h]
  · simp [h]

lemma uploadAnswer_success (e : UploadEnv) (s : PageState)
    (he : isSuccessEnv e = true) (hp : s.processing = false) :
    (uploadAnswer e s).1.questionIndex = s.questionIndex + 1 ∧
    (uploadAnswer e s).1.isFinished =
      (s.isFinished || decide (TOTAL_QUESTIONS < s.questionIndex + 1)) ∧
    (uploadAnswer e s).1.processing = false := by
  obtain ⟨sid, audio, server⟩ := e
  cases sid with
  | none =>
    have h1 : uploadAnswer ⟨none, audio, server⟩ s = (advanceQuestion s, false) := by
      simp [uploadAnswer, hp]
    rw [h1]
    exact ⟨advanceQuestion_questionIndex s, advanceQuestion_isFinished s,
      by rw [advanceQuestion_processing]; exact hp⟩
  | some sv =>
    cases audio with
    | none => simp [isSuccessEnv] at he
    | some n =>
      cases n with
      | zero => simp [isSuccessEnv] at he
      | succ k =>
        cases server with
        | transportError => simp [isSuccessEnv] at he
        | badStatus => simp [isSuccessEnv] at he
        | success f =>
          have h1 : uploadAnswer ⟨some sv, some (k + 1), .success f⟩ s =
              (advanceQuestion
                { s with errorMsg := none
                         nextOverride :=
                           some (nextQuestionText f (s.questionIndex + 1))
                         processing := false }, true) := by
            simp [uploadAnswer, hp]
          rw [h1]
          refine ⟨advanceQuestion_questionIndex _, ?_, ?_⟩
          · rw [advanceQuestion_isFinished]
          · rw [advanceQuestion_processing]

lemma uploadStep_fold :
    ∀ (envs : List UploadEnv) (s : PageState),
      (∀ e ∈ envs, isSuccessEnv e = true) → s.processing = false →
      (envs.foldl uploadStep s).questionIndex = s.questionIndex + envs.length ∧
      (envs.foldl uploadStep s).processing = false ∧
      ((envs.foldl uploadStep s).isFinished = true ↔
        (s.isFinished = true ∨
          (1 ≤ envs.length ∧ TOTAL_QUESTIONS < s.questionIndex + envs.length))) := by
  intro envs
  induction envs with
  | nil =>
    intro s _ hp
    refine ⟨by simp, by simpa using hp, by simp⟩
  | cons e es ih =>
    intro s hall hp
    have he := hall e (by simp)
    obtain ⟨h1, h2, h3⟩ := uploadAnswer_success e s he hp
    obtain ⟨q1, q2, q3⟩ :=
      ih (uploadStep s e) (fun x hx => hall x (by simp [hx])) h3
    have hfin : (uploadStep s e).isFinished = true ↔
        (s.isFinished = true ∨ TOTAL_QUESTIONS < s.questionIndex + 1) := by
      show (uploadAnswer e s).1.isFinished = true ↔ _
      rw [h2]
      simp
    refine ⟨?_, ?_, ?_⟩
    · rw [List.foldl_cons, q1]
      show (uploadAnswer e s).1.questionIndex + es.length = s.questionIndex + (e :: es).length
      rw [h1, List.length_cons]
      omega
    · rw [List.foldl_cons]
      exact q2
    · rw [List.foldl_cons, q3, hfin]
      have hq : (uploadStep s e).questionIndex = s.questionIndex + 1 := h1
      rw [hq, List.length_cons]
      constructor
      · rintro ((hf | hlt) | ⟨hlen, hlt⟩)
        · exact Or.inl hf
        · exact Or.inr ⟨by omega, by omega⟩
        · exact Or.inr ⟨by omega, by omega⟩
      · rintro (hf | ⟨hlen, hlt⟩)
        · exact Or.inl (Or.inl hf)
        · by_cases hqlt : TOTAL_QUESTIONS < s.questionIndex + 1
          · exact Or.inl (Or.inr hqlt)
          · exact Or.inr ⟨by omega, by omega⟩

/-! ### Claim theorems: interview sequencing -/

/-- C2: Starting from the initial interview page state (question index 1,
not finished) with `TOTAL_QUESTIONS = 3`, a sequence of successful answer
submissions reaches the FINISHED state exactly when it contains at least 3
submissions — on the 3rd, never earlier, never requiring more. -/
theorem interview_finishes_after_three :
    ∀ envs : List UploadEnv, (∀ e ∈ envs, isSuccessEnv e = true) →
      ((envs.foldl uploadStep initialPageState).isFinished = true ↔
        3 ≤ envs.length) := by
  intro envs hall
  obtain ⟨_, _, hfin⟩ := uploadStep_fold envs initialPageState hall rfl
  rw [hfin]
  show (false = true ∨
    (1 ≤ envs.length ∧ TOTAL_QUESTIONS < 1 + envs.length)) ↔ 3 ≤ envs.length
  rw [show TOTAL_QUESTIONS = 3 from rfl]
  constructor
  · rintro (h | ⟨h1, h2⟩)
    · exact absurd h (by simp)
    · omega
  · intro h
    exact Or.inr ⟨by omega, by omega⟩

/-- Witness for C2: three successful submissions finish the interview. -/
theorem interview_finishes_after_three_witness :
    (([⟨none, none, .transportError⟩, ⟨none, none, .transportError⟩,
        ⟨none, none, .transportError⟩] : List UploadEnv).foldl uploadStep
        initialPageState).isFinished = true :=
  (interview_finishes_after_three _ (by decide)).mpr (by decide)

/-- C3 counterexample: with an active session, a submission whose audio
blob is missing is rejected (`"No audio captured..."` error recorded) and
the question index does NOT advance — it stays at 1 instead of moving to
2, refuting "every answer submission, including one whose audio content is
missing or empty, advances the question index by exactly one" and
"an empty answer is recorded rather than rejected". -/
theorem empty_audio_rejected_cex :
    (uploadAnswer ⟨some "sid", none, .badStatus⟩ initialPageState).1.questionIndex = 1 ∧
    initialPageState.questionIndex = 1 ∧
    (uploadAnswer ⟨some "sid", none, .badStatus⟩ initialPageState).1.errorMsg =
      some noAudioMsg ∧
    (uploadAnswer ⟨some "sid", none, .badStatus⟩ initialPageState).1.isFinished = false :=
  ⟨rfl, rfl, rfl, rfl⟩

/-- C3 (amended): The question index never moves backward and each
submission advances it by at most one.  It advances by exactly one when no
session id is stored, or when the audio is non-empty and the upload
succeeds; with an active session a submission with missing or empty audio
is rejected with the "No audio captured" error and the index is
unchanged. -/
theorem answer_advance_amended :
    ∀ (e : UploadEnv) (s : PageState), s.processing = false →
      ((uploadAnswer e s).1.questionIndex = s.questionIndex + 1 ∨
        (uploadAnswer e s).1.questionIndex = s.questionIndex) ∧
      s.questionIndex ≤ (uploadAnswer e s).1.questionIndex ∧
      (isSuccessEnv e = true →
        (uploadAnswer e s).1.questionIndex = s.questionIndex + 1) ∧
      (∀ sv, e.sessionId = some sv → (e.audio = none ∨ e.audio = some 0) →
        (uploadAnswer e s).1.questionIndex = s.questionIndex ∧
        (uploadAnswer e s).1.errorMsg = some noAudioMsg) := by
  intro e s hp
  obtain ⟨sid, audio, server⟩ := e
  cases sid with
  | none =>
    have h1 : uploadAnswer ⟨none, audio, server⟩ s = (advanceQuestion s, false) := by
      simp [uploadAnswer, hp]
    rw [h1]
    rw [advanceQuestion_questionIndex]
    exact ⟨Or.inl rfl, by omega, fun _ => rfl, fun sv hsv => by simp at hsv⟩
  | some sv =>
    cases audio with
    | none =>
      have h1 : uploadAnswer ⟨some sv, none, server⟩ s =
          ({ s with errorMsg := some noAudioMsg, processing := false }, false) := by
        simp [uploadAnswer, hp]
      rw [h1]
      exact ⟨Or.inr rfl, le_refl _, fun he => by simp [isSuccessEnv] at he,
        fun _ _ _ => ⟨rfl, rfl⟩⟩
    | some n =>
      cases n with
      | zero =>
        have h1 : uploadAnswer ⟨some sv, some 0, server⟩ s =
            ({ s with errorMsg := some noAudioMsg, processing := false }, false) := by
          simp [uploadAnswer, hp]
        rw [h1]
        exact ⟨Or.inr rfl, le_refl _, fun he => by simp [isSuccessEnv] at he,
          fun _ _ _ => ⟨rfl, rfl⟩⟩
      | succ k =>
        have hbad : ∀ sv2, some sv = some sv2 →
            (some (k + 1) = (none : Option Nat) ∨ some (k + 1) = some 0) → False := by
          rintro sv2 _ (h | h) <;> simp at h
        cases server with
        | transportError =>
          have h1 : uploadAnswer ⟨some sv, some (k + 1), .transportError⟩ s =
              ({ s with errorMsg := some "Failed to upload answer.",
                        processing := false }, true) := by
            simp [uploadAnswer, hp]
          rw [h1]
          exact ⟨Or.inr rfl, le_refl _, fun he => by simp [isSuccessEnv] at he,
            fun sv2 hs ha => absurd (hbad sv2 hs ha) (by simp)⟩
        | badStatus =>
          have h1 : uploadAnswer ⟨some sv, some (k + 1), .badStatus⟩ s =
              ({ s with errorMsg := some "Failed to upload answer.",
                        processing := false }, true) := by
            simp [uploadAnswer, hp]
          rw [h1]
          exact ⟨Or.inr rfl, le_refl _, fun he => by simp [isSuccessEnv] at he,
            fun sv2 hs ha => absurd (hbad sv2 hs ha) (by simp)⟩
        | success f =>
          have h1 : uploadAnswer ⟨some sv, some (k + 1), .success f⟩ s =
              (advanceQuestion
                { s with errorMsg := none
                         nextOverride :=
                           some (nextQuestionText f (s.questionIndex + 1))
                         processing := false }, true) := by
            simp [uploadAnswer, hp]
          rw [h1, advanceQuestion_questionIndex]
          exact ⟨Or.inl rfl, Nat.le_succ _, fun _ => rfl,
            fun sv2 hs ha => absurd (hbad sv2 hs ha) (by simp)⟩

/-- Witness for C3 (amended): a successful submission advances 1 → 2. -/
theorem answer_advance_amended_witness :
    (uploadAnswer ⟨none, none, .transportError⟩ initialPageState).1.questionIndex =
      initialPageState.questionIndex + 1 :=
  (answer_advance_amended ⟨none, none, .transportError⟩ initialPageState rfl).2.2.1
    (by decide)

/-- C8: While the processing-upload guard flag is set, `uploadAnswer`
(also when invoked from the recorder stop handler) returns immediately:
the state is unchanged and no request is issued; and whenever a call
actually runs (flag clear at entry), the flag is clear again when it
finishes. -/
theorem upload_guard :
    ∀ (e : UploadEnv) (s : PageState),
      (s.processing = true →
        uploadAnswer e s = (s, false) ∧ recorderStop e s = (s, false)) ∧
      (s.processing = false → (uploadAnswer e s).1.processing = false) := by
  intro e s
  constructor
  · intro h
    constructor
    · simp [uploadAnswer, h]
    · simp [recorderStop, h]
  · intro hp
    obtain ⟨sid, audio, server⟩ := e
    cases sid with
    | none =>
      have h1 : uploadAnswer ⟨none, audio, server⟩ s = (advanceQuestion s, false) := by
        simp [uploadAnswer, hp]
      rw [h1, advanceQuestion_processing]
      exact hp
    | some sv =>
      cases audio with
      | none => simp [uploadAnswer, hp]
      | some n =>
        cases n with
        | zero => simp [uploadAnswer, hp]
        | succ k =>
          cases server with
          | transportError => simp [uploadAnswer, hp]
          | badStatus => simp [uploadAnswer, hp]
          | success f =>
            have h1 : uploadAnswer ⟨some sv, some (k + 1), .success f⟩ s =
                (advanceQuestion
                  { s with errorMsg := none
                           nextOverride :=
                             some (nextQuestionText f (s.questionIndex + 1))
                           processing := false }, true) := by
              simp [uploadAnswer, hp]
            rw [h1, advanceQuestion_processing]

/-- Witness for C8: a guarded call is a no-op, and a completed call
leaves the flag clear. -/
theorem upload_guard_witness :
    (uploadAnswer ⟨none, none, .transportError⟩
        { initialPageState with processing := true } =
      ({ initialPageState with processing := true }, false) ∧
     recorderStop ⟨none, none, .transportError⟩
        { initialPageState with processing := true } =
      ({ initialPageState with processing := true }, false)) ∧
    (uploadAnswer ⟨none, none, .transportError⟩ initialPageState).1.processing = false :=
  ⟨(upload_guard ⟨none, none, .transportError⟩
      { initialPageState with processing := true }).1 rfl,
   (upload_guard ⟨none, none, .transportError⟩ initialPageState).2 rfl⟩

/-! ### Claim theorems: upload page and interview setup -/

/-- C6 counterexample: the upload page rejects a submission without a CV
file, and rejects one whose job description is blank — the context fields
are not all optional at submission. -/
theorem upload_required_fields_cex :
    handleSubmit none "a job description" "" =
      .rejected "Please upload your CV first." ∧
    handleSubmit (some "cv.pdf") "   " "company" =
      .rejected "Please paste the job description." := by
  refine ⟨rfl, ?_⟩
  simp [handleSubmit, show jsTrim "   " = "" from by decide]

/-- C6 (amended): Only the company info field is optional at submission:
`handleSubmit` rejects a missing CV file and a blank (empty after
trimming) job description; whenever the CV is present and the job
description is non-blank the submission proceeds, for any company info
(including the empty string). -/
theorem upload_company_optional :
    ∀ (cv jobDescription companyDetails : String),
      (jsTrim jobDescription ≠ "" →
        handleSubmit (some cv) jobDescription companyDetails =
          .proceeds cv jobDescription companyDetails) ∧
      (jsTrim jobDescription = "" →
        handleSubmit (some cv) jobDescription companyDetails =
          .rejected "Please paste the job description.") ∧
      handleSubmit none jobDescription companyDetails =
        .rejected "Please upload your CV first." := by
  intro cv jd co
  refine ⟨fun h => ?_, fun h => ?_, rfl⟩
  · simp [handleSubmit, h]
  · simp [handleSubmit, h]

/-- Witness for C6 (amended): submission proceeds with empty company
info. -/
theorem upload_company_optional_witness :
    handleSubmit (some "cv.pdf") "a role" "" = .proceeds "cv.pdf" "a role" "" :=
  (upload_company_optional "cv.pdf" "a role" "").1 (by decide)

/-- C7: The interview-config request body is the ordered triple
`(focus, interviewer behavior, difficulty)` of 1-based option indices —
each in `{1, 2, 3}` for a selected option — and the request is sent only
when all three dimensions have a selection and a session id exists. -/
theorem interview_config_request :
    ∀ focus behavior difficulty sessionId : Option String,
      (handleStartInterview focus behavior difficulty sessionId ≠ none →
        focus ≠ none ∧ behavior ≠ none ∧ difficulty ≠ none ∧ sessionId ≠ none) ∧
      (∀ f b d sid, focus = some f → behavior = some b → difficulty = some d →
        sessionId = some sid →
        f ∈ focusOptions → b ∈ interviewerBehaviorOptions → d ∈ difficultyOptions →
        handleStartInterview focus behavior difficulty sessionId =
          some [jsIndexOf focusOptions f + 1,
                jsIndexOf interviewerBehaviorOptions b + 1,
                jsIndexOf difficultyOptions d + 1] ∧
        (∀ v ∈ [jsIndexOf focusOptions f + 1,
                jsIndexOf interviewerBehaviorOptions b + 1,
                jsIndexOf difficultyOptions d + 1], 1 ≤ v ∧ v ≤ 3)) := by
  intro focus behavior difficulty sessionId
  constructor
  · intro h
    cases behavior <;> cases difficulty <;> cases focus <;> cases sessionId <;>
      simp [handleStartInterview] at h ⊢
  · intro f b d sid hf hb hd hsid hmf hmb hmd
    subst hf; subst hb; subst hd; subst hsid
    refine ⟨rfl, ?_⟩
    have h1 : 1 ≤ jsIndexOf focusOptions f + 1 ∧ jsIndexOf focusOptions f + 1 ≤ 3 := by
      fin_cases hmf <;> decide
    have h2 : 1 ≤ jsIndexOf interviewerBehaviorOptions b + 1 ∧
        jsIndexOf interviewerBehaviorOptions b + 1 ≤ 3 := by
      fin_cases hmb <;> decide
    have h3 : 1 ≤ jsIndexOf difficultyOptions d + 1 ∧
        jsIndexOf difficultyOptions d + 1 ≤ 3 := by
      fin_cases hmd <;> decide
    intro v hv
    simp only [List.mem_cons, List.not_mem_nil, or_false] at hv
    rcases hv with rfl | rfl | rfl
    · exact h1
    · exact h2
    · exact h3

/-- Witness for C7 at a concrete configuration. -/
theorem interview_config_request_witness :
    handleStartInterview (some "More behavioral") (some "Neutral & professional")
        (some "Hard / stretch") (some "sid") =
      some [jsIndexOf focusOptions "More behavioral" + 1,
            jsIndexOf interviewerBehaviorOptions "Neutral & professional" + 1,
            jsIndexOf difficultyOptions "Hard / stretch" + 1] ∧
    (∀ v ∈ [jsIndexOf focusOptions "More behavioral" + 1,
            jsIndexOf interviewerBehaviorOptions "Neutral & professional" + 1,
            jsIndexOf difficultyOptions "Hard / stretch" + 1], 1 ≤ v ∧ v ≤ 3) :=
  (interview_config_request (some "More behavioral") (some "Neutral & professional")
      (some "Hard / stretch") (some "sid")).2
    "More behavioral" "Neutral & professional" "Hard / stretch" "sid"
    rfl rfl rfl rfl (by decide) (by decide) (by decide)

end GreenPT
